import Mathlib

/-!
Verification of the core logic of `kvakk-git-tools`: the platform classifier
(`kvakk_git_tools/ssb_gitconfig.py`) and the git-configuration reconciler
(`kvakk_git_tools/validate_ssb_gitconfig.py`), shallowly embedded in Lean.

External effects are made explicit parameters:
* the OS identity (`platform.system()`) is a `String` argument;
* environment variables (`os.environ.get`) are `Option String` arguments;
* the subprocess layer is an oracle `List String → Int` giving the exit code
  of each command line (`subprocess.run(cmd).returncode`); `subprocess.run`
  with `check=True` raising `CalledProcessError` on a non-zero exit code is
  modelled by `Except`;
* files are `Option (List String)` (absent, or present with their lines).

The INI parsing done by Python's `configparser.ConfigParser()` (default
`strict=True`) is modelled by `parseConfig` on the line-oriented fragment the
repository's git-config files use: blank lines, full-line `#`/`;` comments,
`[section]` headers, and `key = value` / `key : value` options with keys
lower-cased by `optionxform`.  Multi-line value continuations and inline
comments are outside the modelled fragment.  In strict mode a duplicate
section or a duplicate option within one read raises
(`DuplicateSectionError` / `DuplicateOptionError`); an option line before any
section header raises `MissingSectionHeaderError`.
-/

deriving instance DecidableEq for Except

namespace KvakkGit

/-- The `PlatformName` enum of `ssb_gitconfig.py`. -/
inductive PlatformName where
  | dapla
  | prodLinux
  | prodWindowsCitrix
  | prodWindowsVdi
  | admWindows
  | admMac
  | unknown
deriving DecidableEq, Fintype

/-- The string value of each `PlatformName` member. -/
def PlatformName.value : PlatformName → String
  | .dapla => "dapla"
  | .prodLinux => "prod-linux"
  | .prodWindowsCitrix => "prod-windows-citrix"
  | .prodWindowsVdi => "prod-windows-vdi"
  | .admWindows => "adm-windows"
  | .admMac => "adm-mac"
  | .unknown => "unknown"

/-- The boolean signal fields of the `Platform` class, gathered by
`Platform.__init__`. -/
structure Signals where
  linux : Bool
  windows : Bool
  dapla : Bool
  prod_zone : Bool
  adm_zone : Bool
  citrix : Bool
  mac : Bool
deriving DecidableEq

namespace Platform

/-- Method `Platform.name` of `ssb_gitconfig.py`: the nested `if`s with fall-through
linearised (a `prod_zone` record that is neither Linux nor Windows falls
through to the `dapla` / `adm_zone` / `UNKNOWN` checks, exactly as in the
Python method). -/
def name (s : Signals) : PlatformName :=
  if s.prod_zone && s.linux then .prodLinux
  else if s.prod_zone && s.windows then
    (if s.citrix then .prodWindowsCitrix else .prodWindowsVdi)
  else if s.dapla then .dapla
  else if s.adm_zone && s.windows then .admWindows
  else if s.adm_zone && s.mac then .admMac
  else .unknown

/-- Method `Platform.is_unsupported`: membership of `name` in the hard-coded list. -/
def isUnsupportedName (p : PlatformName) : Bool :=
  p ∈ [PlatformName.prodWindowsVdi, PlatformName.admWindows,
       PlatformName.admMac, PlatformName.unknown]

/-- Method `Platform.is_unsupported` as a function of the signal record. -/
def is_unsupported (s : Signals) : Bool := isUnsupportedName (name s)

/-- Method `Platform.is_supported`. -/
def is_supported (s : Signals) : Bool := !is_unsupported s

end Platform

/-- The spec's priority table (§4.1), written from the spec's words for the
refinement comparison with `Platform.name`.  First match wins; cases the
table leaves without a label (a `prod` record that is neither Linux nor
Windows, an `adm` record that is neither Windows nor Mac) are `none`. -/
def classifyTable (s : Signals) : Option PlatformName :=
  if s.prod_zone then
    if s.linux then some .prodLinux
    else if s.windows then
      (if s.citrix then some .prodWindowsCitrix else some .prodWindowsVdi)
    else none
  else if s.dapla then some .dapla
  else if s.adm_zone then
    if s.windows then some .admWindows
    else if s.mac then some .admMac
    else none
  else some .unknown

/-- Result of `subprocess.run`: the exit code of the completed process. -/
structure SubprocessResult where
  returncode : Int
deriving DecidableEq

/-- Python's `subprocess.CalledProcessError`, raised by `subprocess.run(..., check=True)`
on a non-zero exit code. -/
structure CalledProcessError where
  returncode : Int
deriving DecidableEq

/-- Model of `subprocess.run(command, check=check)` given the exit-code oracle `env`:
raises `CalledProcessError` iff `check` is set and the exit code is
non-zero. -/
def subprocessRun (env : List String → Int) (check : Bool)
    (command : List String) : Except CalledProcessError SubprocessResult :=
  if check && env command != 0 then .error ⟨env command⟩
  else .ok ⟨env command⟩

/-- The ping command line built by `ping` in `ssb_gitconfig.py` for the given
`platform.system()` string. -/
def pingCommand (os : String) (host : String) : List String :=
  let ping_param := if os == "Windows" then "-n" else "-c"
  let timeout_param := if os == "Windows" then "-w" else "-W"
  let timeout_value := if os == "Linux" then "1" else "1000"
  ["ping", ping_param, "1", timeout_param, timeout_value, host]

/-- Function `ping` of `ssb_gitconfig.py`: run the ping command without `check`, and
report whether the exit code is zero. -/
def ping (env : List String → Int) (os : String) (host : String) :
    Except CalledProcessError Bool := do
  let result ← subprocessRun env false (pingCommand os host)
  return result.returncode == 0

/-- Python's `"ICA" in session_name`: substring containment. -/
def containsICA (sessionName : String) : Bool :=
  (List.range (sessionName.length + 1)).any
    (fun i => "ICA".toList.isPrefixOf (sessionName.toList.drop i))

/-- Constructor `Platform.__init__` of `ssb_gitconfig.py`, as a function of the OS string,
the `DAPLA_REGION` and `SESSIONNAME` environment variables and the exit-code
oracle.  Besides the signal record it returns the list of hosts actually
pinged, so that the number of network probes issued can be stated. -/
def platformInit (os : String) (daplaRegion sessionName : Option String)
    (env : List String → Int) :
    Except CalledProcessError (Signals × List String) := do
  let linux := os == "Linux"
  let windows := os == "Windows"
  let mac := os == "Darwin"
  let dapla := daplaRegion == some "DAPLA_LAB" || daplaRegion == some "BIP"
  if dapla then
    return (⟨linux, windows, dapla, false, false, false, mac⟩, [])
  else
    let prod_zone ← ping env os "sl-jupyter-p.ssb.no"
    let citrix := match sessionName with
      | none => false
      | some sn => containsICA sn
    if prod_zone then
      return (⟨linux, windows, dapla, prod_zone, false, citrix, mac⟩,
        ["sl-jupyter-p.ssb.no"])
    else
      let adm_zone ← ping env os "aw-dc04.ssb.no"
      return (⟨linux, windows, dapla, prod_zone, adm_zone, citrix, mac⟩,
        ["sl-jupyter-p.ssb.no", "aw-dc04.ssb.no"])

/-- A parsed configuration: the `{section: {key: value}}` dict built from a
`ConfigParser` in `_validate_platform_git_config` (both dict levels keep
insertion order and have unique keys). -/
abbrev ConfigSet := List (String × List (String × String))

/-- Association-list lookup, the model of Python `dict` indexing / `in`. -/
def alookup {β : Type} : List (String × β) → String → Option β
  | [], _ => none
  | (k, v) :: rest, key => if k = key then some v else alookup rest key

/-- Lookup `local[section][key]`, when both levels are present. -/
def configLookup (c : ConfigSet) (sec key : String) : Option String :=
  match alookup c sec with
  | none => none
  | some kvs => alookup kvs key

/-- Function `_check_config` of `validate_ssb_gitconfig.py`: the section and the key
must exist and the value must equal the expected value. -/
def check_config (expected_value : String) (actual_conf : ConfigSet)
    (sec key : String) : Bool :=
  match alookup actual_conf sec with
  | none => false
  | some kvs =>
    match alookup kvs key with
    | none => false
    | some v => expected_value == v

/-- The `[user]`-section gate of `_validate_platform_git_config`: if the local
config has a `user` section, both the `name` and the `email` keys must be in
it (their values are not inspected). -/
def userSectionOk (local_config : ConfigSet) : Bool :=
  match alookup local_config "user" with
  | none => true
  | some kvs => (alookup kvs "name").isSome && (alookup kvs "email").isSome

/-- The pure comparison core of `_validate_platform_git_config` (its lines
after both files are parsed into dicts): the `user`-section gate, then
`all(_check_config(value, local_config, section, key) for section in
ssb_config for key, value in ssb_config[section].items())`. -/
def reconcile (local_config ssb_config : ConfigSet) : Bool :=
  userSectionOk local_config &&
    ssb_config.all (fun s =>
      s.2.all (fun kv => check_config kv.2 local_config s.1 kv.1))

/-- Errors raised while parsing with a default (strict) `ConfigParser`. -/
inductive ParseError where
  | duplicateSection (sec : String)
  | duplicateOption (sec key : String)
  | missingSectionHeader (line : String)
  | parsingError (line : String)
deriving DecidableEq

/-- Parser state: the sections read so far and the current section name. -/
structure PState where
  cfg : ConfigSet
  cur : Option String

/-- Append a key/value at the end of a named section. -/
def addKey (c : ConfigSet) (sec key value : String) : ConfigSet :=
  c.map (fun s => if s.1 = sec then (s.1, s.2 ++ [(key, value)]) else s)

/-- The characters Python's `str.strip()` removes. -/
def isPySpace (c : Char) : Bool :=
  c == ' ' || c == '\t' || c == '\n' || c == '\r' || c == '\x0b' || c == '\x0c'

/-- Python's `str.strip()` on a character list. -/
def trimChars (l : List Char) : List Char :=
  ((l.dropWhile isPySpace).reverse.dropWhile isPySpace).reverse

/-- Python's `str.lower()` on the ASCII fragment used by git-config keys. -/
def lowerChar (c : Char) : Char :=
  if 65 ≤ c.toNat ∧ c.toNat ≤ 90 then Char.ofNat (c.toNat + 32) else c

/-- Index of the first `=` or `:` delimiter in a line (the non-greedy
`option` group of `ConfigParser.OPTCRE`), if any. -/
def delimIdx (l : List Char) : Option Nat :=
  match l with
  | [] => none
  | c :: rest =>
    if c = '=' ∨ c = ':' then some 0
    else (delimIdx rest).map (· + 1)

/-- One line of `ConfigParser.read_string` (strict mode) on the modelled
fragment: skip blank and full-line comment (`#`/`;`) lines; a line matching
`SECTCRE` (`[` then a non-empty header ending at the last `]`) opens a new
section, rejecting a duplicate section name; otherwise the line must be
`key = value` (or `key : value`) under some section, the key is lower-cased
by `optionxform`, and a key already present in the current section is
rejected as a duplicate option. -/
def parseLine (st : PState) (line : String) : Except ParseError PState :=
  match trimChars line.data with
  | [] => .ok st
  | c :: rest =>
    if c = '#' ∨ c = ';' then .ok st
    else if c = '[' ∧
        1 < rest.length - (rest.reverse.takeWhile (· ≠ ']')).length then
      let sec : String :=
        ⟨rest.take (rest.length - (rest.reverse.takeWhile (· ≠ ']')).length - 1)⟩
      match alookup st.cfg sec with
      | some _ => .error (.duplicateSection sec)
      | none => .ok ⟨st.cfg ++ [(sec, [])], some sec⟩
    else
      match delimIdx (c :: rest) with
      | none => .error (.parsingError line)
      | some i =>
        let key : String := ⟨(trimChars ((c :: rest).take i)).map lowerChar⟩
        let value : String := ⟨trimChars ((c :: rest).drop (i + 1))⟩
        match st.cur with
        | none => .error (.missingSectionHeader line)
        | some sec =>
          match alookup st.cfg sec with
          | none => .error (.parsingError line)
          | some kvs =>
            match alookup kvs key with
            | some _ => .error (.duplicateOption sec key)
            | none => .ok ⟨addKey st.cfg sec key value, some sec⟩

/-- Fold `parseLine` over the lines. -/
def parseLines (st : PState) : List String → Except ParseError ConfigSet
  | [] => .ok st.cfg
  | line :: rest => do
    let st' ← parseLine st line
    parseLines st' rest

/-- Model of `ConfigParser().read_string` on a list of lines (modelled fragment). -/
def parseConfig (lines : List String) : Except ParseError ConfigSet :=
  parseLines ⟨[], none⟩ lines

/-- The failures `_validate_platform_git_config` can raise: the
`FileExistsError` for a missing local config file, the `FileNotFoundError`
from opening a missing packaged reference resource, or a `configparser`
error from either file. -/
inductive ValidationError where
  | missingLocalFile (path : String)
  | missingRefResource (resource : String)
  | configError (e : ParseError)
deriving DecidableEq

/-- Function `_validate_platform_git_config` of `validate_ssb_gitconfig.py`:
return `false` for an unsupported platform before touching any file; raise
for a missing local file; load and parse the packaged reference config for
the platform (raising if the resource is absent); parse the local file; then
run the `user`-section gate and the key-by-key comparison (`reconcile`). -/
def validate_platform_git_config (git_config_path : String)
    (localFile : Option (List String))
    (resources : String → Option (List String)) (p : PlatformName) :
    Except ValidationError Bool :=
  if Platform.isUnsupportedName p then .ok false
  else
    match localFile with
    | none => .error (.missingLocalFile git_config_path)
    | some localLines =>
      let resourceName := "recommended/gitconfig-" ++ p.value
      match resources resourceName with
      | none => .error (.missingRefResource resourceName)
      | some refLines => do
        let ssb_config ← (parseConfig refLines).mapError .configError
        let local_config ← (parseConfig localLines).mapError .configError
        return reconcile local_config ssb_config

/-! ## Helper lemmas -/

theorem alookup_eq_none_iff {β : Type} (l : List (String × β)) (k : String) :
    alookup l k = none ↔ k ∉ l.map Prod.fst := by
  induction l with
  | nil => simp [alookup]
  | cons p rest ih =>
    obtain ⟨a, b⟩ := p
    by_cases h : a = k
    · subst h
      simp [alookup]
    · simp [alookup, h, ih, Ne.symm h]

theorem alookup_of_mem {β : Type} {l : List (String × β)}
    (hnd : (l.map Prod.fst).Nodup) {x : String × β} (hx : x ∈ l) :
    alookup l x.1 = some x.2 := by
  induction l with
  | nil => simp at hx
  | cons p rest ih =>
    obtain ⟨a, b⟩ := p
    simp only [List.map_cons, List.nodup_cons] at hnd
    rcases List.mem_cons.mp hx with h | h
    · subst h
      simp [alookup]
    · have hak : a ≠ x.1 := by
        intro he
        exact hnd.1 (he ▸ (List.mem_map.mpr ⟨x, h, rfl⟩))
      simp [alookup, hak]
      exact ih hnd.2 h

/-- Lemma: `check_config` succeeds exactly when the key is present with the expected
value. -/
theorem check_config_true_iff (v : String) (c : ConfigSet) (sec k : String) :
    check_config v c sec k = true ↔ configLookup c sec k = some v := by
  unfold check_config configLookup
  cases h1 : alookup c sec with
  | none => simp
  | some kvs =>
    cases h2 : alookup kvs k with
    | none => simp [h2]
    | some w =>
      simp [h2]
      exact eq_comm

/-- The comparison loop of `_validate_platform_git_config` succeeds exactly
when every key of the reference is present in the local config with an
identical value. -/
theorem all_check_config_iff (local_config ssb_config : ConfigSet) :
    (ssb_config.all fun s =>
      s.2.all fun kv => check_config kv.2 local_config s.1 kv.1) = true ↔
    ∀ x ∈ ssb_config, ∀ kv ∈ x.2,
      configLookup local_config x.1 kv.1 = some kv.2 := by
  simp [List.all_eq_true, check_config_true_iff]

/-! ## Claims -/

/-- C1: for every `PlatformSignals` record, `classify()` returns exactly the
label given by the spec's priority table, on every record where the table
assigns a label: production probe success gives `prod-linux` /
`prod-windows-citrix` / `prod-windows-vdi` according to OS and the
session-name marker; otherwise the Dapla marker gives `dapla`; otherwise
admin probe success gives `adm-windows` / `adm-mac`; otherwise `unknown`. -/
theorem name_follows_priority_table (s : Signals) (l : PlatformName)
    (h : classifyTable s = some l) : Platform.name s = l := by
  obtain ⟨lin, win, dap, prod, adm, cit, mac⟩ := s
  cases lin <;> cases win <;> cases dap <;> cases prod <;> cases adm <;>
    cases cit <;> cases mac <;> cases l <;>
    first
    | rfl
    | exact absurd h (by decide)

/-- Witness for C1: a Linux production-zone record is classified
`prod-linux`. -/
theorem name_follows_priority_table_witness :
    Platform.name ⟨true, false, false, true, false, false, false⟩ =
      PlatformName.prodLinux :=
  name_follows_priority_table ⟨true, false, false, true, false, false, false⟩
    PlatformName.prodLinux (by decide)

/-- C10: a record with the production-zone signal set but an OS that is
neither Linux nor Windows gets no `prod` label: classification proceeds
exactly as if the production probe had failed, so with all other signals
false it yields `unknown`, and with the Dapla marker set it yields `dapla`
despite the successful production probe. -/
theorem name_prod_non_linux_windows_falls_through :
    (∀ s : Signals, s.prod_zone = true → s.linux = false → s.windows = false →
      Platform.name s = Platform.name { s with prod_zone := false }) ∧
    Platform.name ⟨false, false, false, true, false, false, true⟩ =
      PlatformName.unknown ∧
    Platform.name ⟨false, false, true, true, false, false, true⟩ =
      PlatformName.dapla := by
  refine ⟨?_, by decide, by decide⟩
  intro s hp hl hw
  obtain ⟨lin, win, dap, prod, adm, cit, mac⟩ := s
  simp only at hp hl hw
  subst hp hl hw
  cases dap <;> cases adm <;> cases cit <;> cases mac <;> rfl

/-- Witness for C10: a production-zone Mac record with the admin signal set
is classified exactly like the corresponding record without the production
signal. -/
theorem name_prod_non_linux_windows_falls_through_witness :
    Platform.name ⟨false, false, false, true, true, false, true⟩ =
      Platform.name ⟨false, false, false, false, true, false, true⟩ :=
  name_prod_non_linux_windows_falls_through.1
    ⟨false, false, false, true, true, false, true⟩ rfl rfl rfl

/-- C2: for a local config with no `user` section, `reconcile` is true exactly
when every `(section, key)` pair of the reference is present in the local
config with an identical value; extra local sections/keys never make the
result false (the condition quantifies over the reference only), and in
particular an empty local config fails against any reference containing at
least one `(section, key)` pair. -/
theorem reconcile_required_minimum (local_config ssb_config : ConfigSet)
    (huser : alookup local_config "user" = none) :
    (reconcile local_config ssb_config = true ↔
      ∀ x ∈ ssb_config, ∀ kv ∈ x.2,
        configLookup local_config x.1 kv.1 = some kv.2) ∧
    (∀ x ∈ ssb_config, ∀ kv ∈ x.2,
      reconcile ([] : ConfigSet) ssb_config = false) := by
  constructor
  · unfold reconcile userSectionOk
    rw [huser]
    simpa using all_check_config_iff local_config ssb_config
  · intro x hx kv hkv
    unfold reconcile userSectionOk
    simp only [alookup, Bool.true_and]
    rw [Bool.eq_false_iff]
    intro hall
    have := (all_check_config_iff ([] : ConfigSet) ssb_config).mp hall x hx kv hkv
    simp [configLookup, alookup] at this

/-- Witness for C2: a local config with an extra section satisfies its
reference, and the reference key is indeed present locally. -/
theorem reconcile_required_minimum_witness :
    configLookup [("core", [("autocrlf", "true")]), ("extra", [("foo", "bar")])]
      "core" "autocrlf" = some "true" :=
  (reconcile_required_minimum
    [("core", [("autocrlf", "true")]), ("extra", [("foo", "bar")])]
    [("core", [("autocrlf", "true")])] (by decide)).1.mp (by decide)
    ("core", [("autocrlf", "true")]) (by decide) ("autocrlf", "true") (by decide)

/-- Counterexample to C3 as stated: (a) a local `user` section whose `name`
and `email` are present but empty passes reconciliation (the code checks key
presence only, never non-emptiness), and (b) when the reference itself
declares a `user.name`, a local user identity differing from the reference
does make `reconcile` return false (user values are not exempt from the
reference comparison). -/
theorem reconcile_user_counterexample :
    reconcile [("user", [("name", ""), ("email", "")]),
               ("core", [("autocrlf", "true")])]
      [("core", [("autocrlf", "true")])] = true ∧
    reconcile [("user", [("name", "Alice A"), ("email", "alice@ssb.no")])]
      [("user", [("name", "Bob B"), ("email", "alice@ssb.no")])] = false := by
  decide

/-- C3 (amended): if the local config declares a `user` section, `reconcile`
requires the `name` and `email` keys to be present (their values are not
inspected, so empty values pass) and returns false immediately when either
key is absent; when both keys are present the `user` section gets no further
special treatment — the result is exactly the reference-minimum comparison,
so user values are compared against the reference whenever the reference
declares them. -/
theorem reconcile_user_presence_only (local_config ssb_config : ConfigSet)
    (kvs : List (String × String))
    (huser : alookup local_config "user" = some kvs) :
    (((alookup kvs "name").isNone ∨ (alookup kvs "email").isNone) →
      reconcile local_config ssb_config = false) ∧
    ((alookup kvs "name").isSome → (alookup kvs "email").isSome →
      (reconcile local_config ssb_config = true ↔
        ∀ x ∈ ssb_config, ∀ kv ∈ x.2,
          configLookup local_config x.1 kv.1 = some kv.2)) := by
  constructor
  · intro habs
    unfold reconcile userSectionOk
    rw [huser]
    rcases habs with h | h <;> simp [Option.isNone_iff_eq_none.mp h]
  · intro hn he
    unfold reconcile userSectionOk
    rw [huser]
    rw [Option.isSome_iff_exists] at hn he
    obtain ⟨n, hn⟩ := hn
    obtain ⟨e, he⟩ := he
    simp only [hn, he, Option.isSome_some, Bool.and_self, Bool.true_and]
    exact all_check_config_iff local_config ssb_config

/-- Witness for C3 (amended): the spec's own example — a local config whose
`user` section misses `email` — fails against any reference, here an empty
one. -/
theorem reconcile_user_presence_only_witness :
    reconcile [("user", [("name", "A B")])] [] = false :=
  (reconcile_user_presence_only [("user", [("name", "A B")])] []
    [("name", "A B")] (by decide)).1 (Or.inr (by decide))

/-- C9: reconciliation is reflexive — any well-formed (unique section names,
unique keys per section) non-empty config that either has no `user` section
or has one with both `name` and `email` present reconciles against
itself. -/
theorem reconcile_refl (X : ConfigSet) (hne : X ≠ [])
    (hsec : (X.map Prod.fst).Nodup)
    (hkeys : ∀ x ∈ X, (x.2.map Prod.fst).Nodup)
    (huser : alookup X "user" = none ∨ ∃ kvs, alookup X "user" = some kvs ∧
      (alookup kvs "name").isSome ∧ (alookup kvs "email").isSome) :
    reconcile X X = true := by
  unfold reconcile
  rw [Bool.and_eq_true]
  constructor
  · unfold userSectionOk
    rcases huser with h | ⟨kvs, h, hn, he⟩
    · simp [h]
    · simp [h, hn, he]
  · rw [all_check_config_iff]
    intro x hx kv hkv
    unfold configLookup
    rw [alookup_of_mem hsec hx]
    exact alookup_of_mem (hkeys x hx) hkv

/-- Witness for C9: a concrete one-section config reconciles against
itself. -/
theorem reconcile_refl_witness :
    reconcile [("core", [("autocrlf", "true")])]
      [("core", [("autocrlf", "true")])] = true :=
  reconcile_refl [("core", [("autocrlf", "true")])] (by decide) (by decide)
    (by decide) (Or.inl (by decide))

/-- C4: validating against an unsupported platform label returns `false`
before any file is read or compared — whatever the local file contents (even
absent), whatever the reference resources. -/
theorem validate_unsupported_false (p : PlatformName)
    (h : Platform.isUnsupportedName p = true) (path : String)
    (localFile : Option (List String))
    (resources : String → Option (List String)) :
    validate_platform_git_config path localFile resources p = .ok false := by
  unfold validate_platform_git_config
  simp [h]

/-- Witness for C4: the `unknown` label yields `false` even with the local
file missing and no reference published. -/
theorem validate_unsupported_false_witness :
    validate_platform_git_config ".gitconfig" none (fun _ => none)
      PlatformName.unknown = .ok false :=
  validate_unsupported_false PlatformName.unknown (by decide) ".gitconfig"
    none (fun _ => none)

/-- C5: for a supported platform, a missing local configuration file raises
the missing-file error (it is not treated as an empty config and does not
yield `false`), and a missing packaged reference resource likewise raises a
distinguishable missing-resource error. -/
theorem validate_missing_file_raises (p : PlatformName)
    (hsup : Platform.isUnsupportedName p = false) (path : String)
    (resources : String → Option (List String)) :
    (validate_platform_git_config path none resources p =
      .error (.missingLocalFile path)) ∧
    (∀ localLines, resources ("recommended/gitconfig-" ++ p.value) = none →
      validate_platform_git_config path (some localLines) resources p =
        .error (.missingRefResource ("recommended/gitconfig-" ++ p.value))) := by
  constructor
  · unfold validate_platform_git_config
    simp [hsup]
  · intro localLines hres
    unfold validate_platform_git_config
    simp [hsup, hres]

/-- Witness for C5: on the supported `dapla` label a missing local
`.gitconfig` raises the missing-file error. -/
theorem validate_missing_file_raises_witness :
    validate_platform_git_config ".gitconfig" none (fun _ => none)
      PlatformName.dapla = .error (.missingLocalFile ".gitconfig") :=
  (validate_missing_file_raises PlatformName.dapla (by decide) ".gitconfig"
    (fun _ => none)).1

/-- Shape of `platformInit` written out: the probes reduce to exit-code comparisons
because `ping` calls `subprocess.run` without `check`. -/
theorem platformInit_eq (os : String) (daplaRegion sessionName : Option String)
    (env : List String → Int) :
    platformInit os daplaRegion sessionName env =
      if daplaRegion == some "DAPLA_LAB" || daplaRegion == some "BIP" then
        .ok (⟨os == "Linux", os == "Windows",
              daplaRegion == some "DAPLA_LAB" || daplaRegion == some "BIP",
              false, false, false, os == "Darwin"⟩, [])
      else if env (pingCommand os "sl-jupyter-p.ssb.no") == 0 then
        .ok (⟨os == "Linux", os == "Windows",
              daplaRegion == some "DAPLA_LAB" || daplaRegion == some "BIP",
              env (pingCommand os "sl-jupyter-p.ssb.no") == 0, false,
              (match sessionName with
                | none => false
                | some sn => containsICA sn),
              os == "Darwin"⟩, ["sl-jupyter-p.ssb.no"])
      else
        .ok (⟨os == "Linux", os == "Windows",
              daplaRegion == some "DAPLA_LAB" || daplaRegion == some "BIP",
              env (pingCommand os "sl-jupyter-p.ssb.no") == 0,
              env (pingCommand os "aw-dc04.ssb.no") == 0,
              (match sessionName with
                | none => false
                | some sn => containsICA sn),
              os == "Darwin"⟩,
          ["sl-jupyter-p.ssb.no", "aw-dc04.ssb.no"]) := rfl

/-- C7: the probe never raises — for every exit-code oracle it yields a
boolean, any non-zero exit code (no reply, unreachable, DNS failure chief
among them) yields `false`, and consequently the whole signal-gathering
constructor never raises either. -/
theorem ping_never_raises (env : List String → Int) (os host : String) :
    (∃ b : Bool, ping env os host = .ok b) ∧
    (env (pingCommand os host) ≠ 0 → ping env os host = .ok false) ∧
    (∀ daplaRegion sessionName, ∃ s hosts,
      platformInit os daplaRegion sessionName env = .ok (s, hosts)) := by
  refine ⟨⟨env (pingCommand os host) == 0, rfl⟩, ?_, ?_⟩
  · intro h
    have hb : (env (pingCommand os host) == 0) = false :=
      beq_eq_false_iff_ne.mpr h
    show Except.ok (env (pingCommand os host) == 0) = Except.ok false
    rw [hb]
  · intro daplaRegion sessionName
    rw [platformInit_eq]
    cases hd : (daplaRegion == some "DAPLA_LAB" || daplaRegion == some "BIP") with
    | true => exact ⟨_, _, rfl⟩
    | false =>
      cases hp : (env (pingCommand os "sl-jupyter-p.ssb.no") == 0) with
      | true => exact ⟨_, _, rfl⟩
      | false => exact ⟨_, _, rfl⟩

/-- Witness for C7: an oracle answering exit code 1 everywhere makes the
probe return `false` rather than raise. -/
theorem ping_never_raises_witness :
    ping (fun _ => 1) "Linux" "sl-jupyter-p.ssb.no" = .ok false :=
  (ping_never_raises (fun _ => 1) "Linux" "sl-jupyter-p.ssb.no").2.1 (by decide)

/-- C8: every signal record produced by a run satisfies the probe-order
invariants — the Dapla marker suppresses both probes, a successful
production probe suppresses the admin probe, and at most two hosts are ever
pinged. -/
theorem platformInit_invariants (os : String)
    (daplaRegion sessionName : Option String) (env : List String → Int)
    (s : Signals) (hosts : List String)
    (h : platformInit os daplaRegion sessionName env = .ok (s, hosts)) :
    (s.dapla = true → s.prod_zone = false ∧ s.adm_zone = false) ∧
    (s.prod_zone = true → s.adm_zone = false) ∧
    hosts.length ≤ 2 := by
  rw [platformInit_eq] at h
  cases hd : (daplaRegion == some "DAPLA_LAB" || daplaRegion == some "BIP") <;>
    rw [hd] at h
  case true =>
    simp only [if_pos] at h
    rw [Except.ok.injEq] at h
    obtain ⟨rfl, rfl⟩ := Prod.mk.injEq .. ▸ h
    exact ⟨fun _ => ⟨rfl, rfl⟩, fun hh => absurd hh Bool.false_ne_true, by decide⟩
  case false =>
    cases hp : (env (pingCommand os "sl-jupyter-p.ssb.no") == 0) <;> rw [hp] at h
    case true =>
      simp only [Bool.false_eq_true, if_false, if_pos] at h
      rw [Except.ok.injEq] at h
      obtain ⟨rfl, rfl⟩ := Prod.mk.injEq .. ▸ h
      exact ⟨fun hh => absurd hh Bool.false_ne_true, fun _ => rfl, by decide⟩
    case false =>
      simp only [Bool.false_eq_true, if_false] at h
      rw [Except.ok.injEq] at h
      obtain ⟨rfl, rfl⟩ := Prod.mk.injEq .. ▸ h
      exact ⟨fun hh => absurd hh Bool.false_ne_true, fun hh => absurd hh Bool.false_ne_true,
        by decide⟩

/-- Witness for C8: a Dapla-marked run pings nothing and reports neither
zone. -/
theorem platformInit_invariants_witness :
    (⟨true, false, true, false, false, false, false⟩ : Signals).prod_zone =
      false ∧
    (⟨true, false, true, false, false, false, false⟩ : Signals).adm_zone =
      false :=
  (platformInit_invariants "Linux" (some "BIP") none (fun _ => 1)
    ⟨true, false, true, false, false, false, false⟩ [] (by decide)).1 rfl

/-! ## Parser well-formedness -/

/-- The well-formedness invariant of a parsed configuration: unique section
names, and unique keys within each section. -/
def InvCS (c : ConfigSet) : Prop :=
  (c.map Prod.fst).Nodup ∧ ∀ x ∈ c, (x.2.map Prod.fst).Nodup

theorem addKey_map_fst (c : ConfigSet) (sec k v : String) :
    (addKey c sec k v).map Prod.fst = c.map Prod.fst := by
  unfold addKey
  rw [List.map_map]
  apply List.map_congr_left
  intro a _
  by_cases h : a.1 = sec <;> simp [h]

theorem mem_addKey {c : ConfigSet} {sec k v : String}
    {x : String × List (String × String)} (hx : x ∈ addKey c sec k v) :
    (x ∈ c ∧ x.1 ≠ sec) ∨ ∃ s ∈ c, s.1 = sec ∧ x = (s.1, s.2 ++ [(k, v)]) := by
  unfold addKey at hx
  obtain ⟨s, hs, heq⟩ := List.mem_map.mp hx
  by_cases h : s.1 = sec
  · right
    exact ⟨s, hs, h, by rw [← heq, if_pos h]⟩
  · left
    rw [← heq, if_neg h]
    exact ⟨hs, h⟩

/-- One parsing step preserves the uniqueness invariant: new sections are
rejected as duplicates when already present, and so are keys within the
current section. -/
theorem parseLine_inv {st st' : PState} {line : String}
    (h : parseLine st line = .ok st') (hi : InvCS st.cfg) : InvCS st'.cfg := by
  unfold parseLine at h
  split at h
  · injection h with h2
    rw [← h2]
    exact hi
  · split at h
    · injection h with h2
      rw [← h2]
      exact hi
    · split at h
      · simp only [] at h
        split at h
        · exact absurd h (by simp)
        · next heq =>
          injection h with h2
          rw [← h2]
          constructor
          · rw [List.map_append, List.nodup_append]
            refine ⟨hi.1, List.nodup_singleton _, ?_⟩
            intro a ha hb
            simp only [List.map_cons, List.map_nil, List.mem_singleton] at hb
            subst hb
            exact (alookup_eq_none_iff _ _).mp heq ha
          · intro x hx
            rcases List.mem_append.mp hx with hx | hx
            · exact hi.2 x hx
            · simp only [List.mem_singleton] at hx
              subst hx
              simp
      · split at h
        · exact absurd h (by simp)
        · split at h
          · exact absurd h (by simp)
          · split at h
            · exact absurd h (by simp)
            · next kvs heq2 =>
              simp only [] at h
              split at h
              · exact absurd h (by simp)
              · next heq3 =>
                injection h with h2
                rw [← h2]
                constructor
                · rw [addKey_map_fst]
                  exact hi.1
                · intro x hx
                  rcases mem_addKey hx with ⟨hxc, _⟩ | ⟨s, hs, hsec, rfl⟩
                  · exact hi.2 x hxc
                  · have hs2 : alookup st.cfg s.1 = some s.2 :=
                      alookup_of_mem hi.1 hs
                    rw [hsec, heq2] at hs2
                    injection hs2 with hs2
                    simp only [List.map_append, List.map_cons, List.map_nil]
                    rw [List.nodup_append]
                    refine ⟨hi.2 s hs, List.nodup_singleton _, ?_⟩
                    intro a ha hb
                    simp only [List.mem_singleton] at hb
                    subst hb
                    have hnk : _ ∉ s.2.map Prod.fst :=
                      (alookup_eq_none_iff _ _).mp (hs2 ▸ heq3)
                    exact hnk ha

/-- Folding the parser over any line list preserves the invariant. -/
theorem parseLines_inv : ∀ (lines : List String) (st : PState) (c : ConfigSet),
    parseLines st lines = .ok c → InvCS st.cfg → InvCS c := by
  intro lines
  induction lines with
  | nil =>
    intro st c h hi
    unfold parseLines at h
    injection h with h2
    rw [← h2]
    exact hi
  | cons line rest ih =>
    intro st c h hi
    unfold parseLines at h
    cases hp : parseLine st line with
    | error e =>
      rw [hp] at h
      exact absurd h (by simp [Bind.bind, Except.bind])
    | ok st' =>
      rw [hp] at h
      simp only [Bind.bind, Except.bind] at h
      exact ih st' c h (parseLine_inv hp hi)

/-- Counterexample to C6 as stated: parsing a section with a duplicated key
does not succeed with the later value — the default strict `ConfigParser`
raises a duplicate-option error. -/
theorem parse_duplicate_key_counterexample :
    parseConfig ["[core]", "autocrlf = true", "autocrlf = input"] =
      .error (.duplicateOption "core" "autocrlf") := by decide

/-- C6 (amended): parsing text with a duplicate key in a section fails with
a duplicate-option error (the default `ConfigParser` is strict); whenever
parsing does succeed, the resulting ConfigurationSet has unique section
names and unique keys per section. -/
theorem parse_strict_unique_keys :
    (∀ (lines : List String) (c : ConfigSet), parseConfig lines = .ok c →
      (c.map Prod.fst).Nodup ∧ ∀ x ∈ c, (x.2.map Prod.fst).Nodup) ∧
    parseConfig ["[user]", "name = A", "name = B"] =
      .error (.duplicateOption "user" "name") := by
  constructor
  · intro lines c h
    exact parseLines_inv lines ⟨[], none⟩ c h ⟨List.nodup_nil, by simp⟩
  · decide

/-- Witness for C6 (amended): a successfully parsed one-section file has
unique section names. -/
theorem parse_strict_unique_keys_witness :
    (([("core", [("autocrlf", "true")])] : ConfigSet).map Prod.fst).Nodup :=
  (parse_strict_unique_keys.1 ["[core]", "autocrlf = true"]
    [("core", [("autocrlf", "true")])] (by decide)).1

end KvakkGit
